import Mathlib

/-!
Verification of the libblockdev plugin/executor subsystem specification
against a shallow embedding of the C sources (src/plugins/lvm.c,
src/plugins/btrfs.c, src/lib/blockdev.h).

Strings are modelled as `List Char`; `gchar*` values that may be NULL are
modelled as `Option (List Char)`; `GHashTable` (built only via
`g_hash_table_insert`) is modelled as an association list with unique keys;
`GError**` out-parameters become `Except`/`Option` results.  The external
Command Executor (`bd_utils_exec_and_report_error` /
`bd_utils_exec_and_capture_output`, which live in the utils library, not in
the sources under verification) is abstracted: functions that call it take
its outcome as an explicit argument, mirroring the spec's `ExecOutcome`.
-/

namespace Blockdev

/-- C strings, modelled as lists of characters. -/
abbrev Str := List Char

/-! ## Splitting helpers (glib `g_strsplit_set` / `g_strsplit`) -/

/-- Core of `g_strsplit_set`: split at every delimiter character, keeping
empty fields (leading, trailing and between adjacent delimiters). -/
def splitKeepEmpty (isDelim : Char → Bool) : Str → List Str
  | [] => [[]]
  | c :: rest =>
    let r := splitKeepEmpty isDelim rest
    if isDelim c then [] :: r else (c :: r.headD []) :: r.tail

/-- Delimiter set `" \t\n"` used by `parse_lvm_vars` (lvm.c line 194). -/
def isWsDelim (c : Char) : Bool := c = ' ' || c = '\t' || c = '\n'

/-- `g_strsplit_set (str, " \t\n", 0)`: an empty string yields an empty
vector; otherwise split at each delimiter, keeping empty fields. -/
def g_strsplit_set_ws (s : Str) : List Str :=
  if s = [] then [] else splitKeepEmpty isWsDelim s

/-- `g_strsplit (str, "\n", 0)`: split output into lines, keeping empty
fields; an empty string yields an empty vector. -/
def g_strsplit_nl (s : Str) : List Str :=
  if s = [] then [] else splitKeepEmpty (fun c => c = '\n') s

/-- The part of a token before its first `=` character. -/
def eqKey (s : Str) : Str := s.takeWhile (fun c => c != '=')

/-- The part of a token after its first `=` character. -/
def eqVal (s : Str) : Str := (s.dropWhile (fun c => c != '=')).drop 1

/-- Whether a token contains the `=` character. -/
def hasEqTok (s : Str) : Bool := s.any (fun c => c = '=')

/-- `g_strsplit (token, "=", 2)`: an empty token yields an empty vector; a
token with no `=` yields a singleton; otherwise the part before the first
`=` and the (unsplit) remainder after it. -/
def splitFirstEq (s : Str) : List Str :=
  if s = [] then []
  else if hasEqTok s then [eqKey s, eqVal s]
  else [s]

/-! ## Hash-table model -/

/-- `g_hash_table_insert` on a string-keyed table: replace the value of an
existing key, otherwise add a new entry.  (The association list keeps
first-insertion order; `GHashTable` itself is unordered, so only lookups
and the key set are meaningful.) -/
def tableInsert : List (Str × Str) → Str → Str → List (Str × Str)
  | [], k, v => [(k, v)]
  | p :: rest, k, v => if p.1 = k then (k, v) :: rest else p :: tableInsert rest k v

/-- `g_hash_table_lookup` on a string-keyed table. -/
def lookupTable : List (Str × Str) → Str → Option Str
  | [], _ => none
  | p :: rest, k => if p.1 = k then some p.2 else lookupTable rest k

/-! ## `parse_lvm_vars` (lvm.c lines 185-208) -/

/-- The loop body of `parse_lvm_vars`: for each token, split on the first
`=` into at most two parts; insert key/value pairs and count insertions;
discard tokens that do not split into exactly two parts. -/
def parseTokens : List Str → List (Str × Str) × Nat → List (Str × Str) × Nat
  | [], acc => acc
  | item :: rest, acc =>
    let key_val := splitFirstEq item
    if key_val.length = 2 then
      parseTokens rest (tableInsert acc.1 (key_val.headD []) (key_val.getD 1 []), acc.2 + 1)
    else
      parseTokens rest acc

/-- `parse_lvm_vars`: split the string on `" \t\n"` and build the table of
`KEY=VALUE` items, returning the table and the number of parsed items. -/
def parse_lvm_vars (str : Str) : List (Str × Str) × Nat :=
  parseTokens (g_strsplit_set_ws str) ([], 0)

/-- Tokens of a line that contain a `=` (exactly the ones
`parse_lvm_vars` inserts into the table). -/
def eqTokens (line : Str) : List Str :=
  (g_strsplit_set_ws line).filter hasEqTok

/-- The value bound to key `k` after processing tokens `ts` left to right
with later insertions winning: the value part of the last token whose key
part is `k`. -/
def lastWins (ts : List Str) (k : Str) : Option Str :=
  (ts.reverse.find? (fun t => eqKey t = k)).map eqVal

/-- First-occurrence deduplication, starting from already-seen keys `ks`. -/
def dedupFrom (ks : List Str) (l : List Str) : List Str :=
  l.foldl (fun acc k => if k ∈ acc then acc else acc ++ [k]) ks

/-- First-occurrence deduplication of a key list. -/
def dedupKeys (l : List Str) : List Str := dedupFrom [] l

/-- Biased choice on options (first if present, otherwise second). -/
def optOr (a b : Option Str) : Option Str :=
  match a with
  | some x => some x
  | none => b

/-! ## `g_ascii_strtoull` (base 0) -/

/-- ASCII whitespace skipped by `strtoull`. -/
def isAsciiSpace (c : Char) : Bool :=
  c = ' ' || c = '\t' || c = '\n' || c = '\x0b' || c = '\x0c' || c = '\r'

/-- Value of a hexadecimal digit character, if any. -/
def hexDigitVal (c : Char) : Option Nat :=
  if '0' ≤ c ∧ c ≤ '9' then some (c.toNat - 48)
  else if 'a' ≤ c ∧ c ≤ 'f' then some (c.toNat - 87)
  else if 'A' ≤ c ∧ c ≤ 'F' then some (c.toNat - 55)
  else none

/-- Value of a digit character in the given base, if valid. -/
def digitVal (base : Nat) (c : Char) : Option Nat :=
  match hexDigitVal c with
  | some d => if d < base then some d else none
  | none => none

/-- Accumulate leading digits of `s` in the given base, stopping at the
first non-digit. -/
def parseDigits (base : Nat) : Str → Nat → Nat
  | [], acc => acc
  | c :: rest, acc =>
    match digitVal base c with
    | some d => parseDigits base rest (acc * base + d)
    | none => acc

/-- `g_ascii_strtoull (value, NULL, 0)`: skip ASCII whitespace, accept an
optional sign, auto-detect base (`0x`/`0X` hex, leading `0` octal, else
decimal), clamp to the `guint64` range, and negate modulo `2^64` on a
leading minus. -/
def g_ascii_strtoull (s : Str) : Nat :=
  let s1 := s.dropWhile isAsciiSpace
  let signBody : Bool × Str :=
    match s1 with
    | '-' :: r => (true, r)
    | '+' :: r => (false, r)
    | _ => (false, s1)
  let baseBody : Nat × Str :=
    match signBody.2 with
    | '0' :: 'x' :: r => (16, r)
    | '0' :: 'X' :: r => (16, r)
    | '0' :: r => (8, r)
    | _ => (10, signBody.2)
  let v := min (parseDigits baseBody.1 baseBody.2 0) (2 ^ 64 - 1)
  if signBody.1 then (2 ^ 64 - v) % 2 ^ 64 else v

/-! ## LVM record types (lvm.h) and field extractors (lvm.c lines 210-339) -/

/-- `BDLVMPVdata`: the 11 fields filled by `get_pv_data_from_table`. -/
structure BDLVMPVdata where
  pv_name : Option Str
  pv_uuid : Option Str
  pe_start : Nat
  vg_name : Option Str
  vg_uuid : Option Str
  vg_size : Nat
  vg_free : Nat
  vg_extent_size : Nat
  vg_extent_count : Nat
  vg_free_count : Nat
  vg_pv_count : Nat
deriving DecidableEq

/-- `BDLVMVGdata`: the 8 fields filled by `get_vg_data_from_table`. -/
structure BDLVMVGdata where
  name : Option Str
  uuid : Option Str
  size : Nat
  free : Nat
  extent_size : Nat
  extent_count : Nat
  free_count : Nat
  pv_count : Nat
deriving DecidableEq

/-- `BDLVMLVdata`: the 6 fields filled by `get_lv_data_from_table`. -/
structure BDLVMLVdata where
  lv_name : Option Str
  vg_name : Option Str
  uuid : Option Str
  size : Nat
  attr : Option Str
  segtype : Option Str
deriving DecidableEq

/-- A numeric field: `g_ascii_strtoull` of the looked-up value, or 0 when
the key is absent (the `if (value) ... else ... = 0` pattern). -/
def numField (table : List (Str × Str)) (k : Str) : Nat :=
  match lookupTable table k with
  | some v => g_ascii_strtoull v
  | none => 0

/-- `get_pv_data_from_table` (lvm.c lines 210-266). -/
def get_pv_data_from_table (table : List (Str × Str)) : BDLVMPVdata :=
  ⟨lookupTable table "LVM2_PV_NAME".toList,
   lookupTable table "LVM2_PV_UUID".toList,
   numField table "LVM2_PE_START".toList,
   lookupTable table "LVM2_VG_NAME".toList,
   lookupTable table "LVM2_VG_UUID".toList,
   numField table "LVM2_VG_SIZE".toList,
   numField table "LVM2_VG_FREE".toList,
   numField table "LVM2_VG_EXTENT_SIZE".toList,
   numField table "LVM2_VG_EXTENT_COUNT".toList,
   numField table "LVM2_VG_FREE_COUNT".toList,
   numField table "LVM2_PV_COUNT".toList⟩

/-- `get_vg_data_from_table` (lvm.c lines 268-316). -/
def get_vg_data_from_table (table : List (Str × Str)) : BDLVMVGdata :=
  ⟨lookupTable table "LVM2_VG_NAME".toList,
   lookupTable table "LVM2_VG_UUID".toList,
   numField table "LVM2_VG_SIZE".toList,
   numField table "LVM2_VG_FREE".toList,
   numField table "LVM2_VG_EXTENT_SIZE".toList,
   numField table "LVM2_VG_EXTENT_COUNT".toList,
   numField table "LVM2_VG_FREE_COUNT".toList,
   numField table "LVM2_PV_COUNT".toList⟩

/-- `get_lv_data_from_table` (lvm.c lines 318-339). -/
def get_lv_data_from_table (table : List (Str × Str)) : BDLVMLVdata :=
  ⟨lookupTable table "LVM2_LV_NAME".toList,
   lookupTable table "LVM2_VG_NAME".toList,
   lookupTable table "LVM2_LV_UUID".toList,
   numField table "LVM2_LV_SIZE".toList,
   lookupTable table "LVM2_LV_ATTR".toList,
   lookupTable table "LVM2_SEGTYPE".toList⟩

/-! ## Command Executor outcome (spec `ExecOutcome`; the executor itself
lives in the utils library, outside the verified sources) -/

/-- Failure classification of one external-command invocation:
`BD_UTILS_EXEC_ERROR_NOOUT` (exit 0 with empty output) or any other
failure carrying its diagnostic message. -/
inductive ExecError where
  | noOut
  | failed (msg : Str)
deriving DecidableEq

/-- Outcome of `bd_utils_exec_and_capture_output` as observed by its LVM
callers: captured output on success, or a classified error. -/
inductive ExecResult where
  | ok (output : Str)
  | err (e : ExecError)
deriving DecidableEq

/-- Errors an LVM query can report: the executor's error propagated
unchanged, or `BD_LVM_ERROR_PARSE`. -/
inductive BDLVMError where
  | execError (e : ExecError)
  | parse
deriving DecidableEq

/-! ## Fetch-one-record queries (lvm.c `bd_lvm_pvinfo` lines 610-646,
`bd_lvm_vginfo` lines 840-875, `bd_lvm_lvinfo` lines 1160-1199) -/

/-- The shared line loop of the info queries: return the record extracted
from the first line whose parsed item count equals the schema size `n`;
report `BD_LVM_ERROR_PARSE` when no line matches. -/
def info_loop {α : Type} (n : Nat) (extract : List (Str × Str) → α) :
    List Str → Except BDLVMError α
  | [] => .error .parse
  | line :: rest =>
    let pr := parse_lvm_vars line
    if pr.2 = n then .ok (extract pr.1) else info_loop n extract rest

/-- `bd_lvm_pvinfo`, from the return of `call_lvm_and_capture_output` on:
a failed call propagates the executor's error; a successful call scans the
output lines with schema size 11. -/
def bd_lvm_pvinfo (r : ExecResult) : Except BDLVMError BDLVMPVdata :=
  match r with
  | .err e => .error (.execError e)
  | .ok output => info_loop 11 get_pv_data_from_table (g_strsplit_nl output)

/-- `bd_lvm_vginfo`: as `bd_lvm_pvinfo` with schema size 8. -/
def bd_lvm_vginfo (r : ExecResult) : Except BDLVMError BDLVMVGdata :=
  match r with
  | .err e => .error (.execError e)
  | .ok output => info_loop 8 get_vg_data_from_table (g_strsplit_nl output)

/-- `bd_lvm_lvinfo`: as `bd_lvm_pvinfo` with schema size 6. -/
def bd_lvm_lvinfo (r : ExecResult) : Except BDLVMError BDLVMLVdata :=
  match r with
  | .err e => .error (.execError e)
  | .ok output => info_loop 6 get_lv_data_from_table (g_strsplit_nl output)

/-! ## List-all queries (lvm.c `bd_lvm_pvs` lines 654-718, `bd_lvm_vgs`
lines 883-945, `bd_lvm_lvs` lines 1209-1276) -/

/-- The shared accumulation loop of the list queries: collect, in line
order, the record of every line whose parsed item count equals `n`. -/
def list_loop {α : Type} (n : Nat) (extract : List (Str × Str) → α) :
    List Str → List α
  | [] => []
  | line :: rest =>
    let pr := parse_lvm_vars line
    if pr.2 = n then extract pr.1 :: list_loop n extract rest
    else list_loop n extract rest

/-- `bd_lvm_pvs`, from the return of `call_lvm_and_capture_output` on: a
`NOOUT` failure is cleared into an empty result array; any other failure
propagates; on success the collected records are returned, or
`BD_LVM_ERROR_PARSE` when no line parsed. -/
def bd_lvm_pvs (r : ExecResult) : Except BDLVMError (List BDLVMPVdata) :=
  match r with
  | .err .noOut => .ok []
  | .err e => .error (.execError e)
  | .ok output =>
    let recs := list_loop 11 get_pv_data_from_table (g_strsplit_nl output)
    if recs = [] then .error .parse else .ok recs

/-- `bd_lvm_vgs`: as `bd_lvm_pvs` with schema size 8. -/
def bd_lvm_vgs (r : ExecResult) : Except BDLVMError (List BDLVMVGdata) :=
  match r with
  | .err .noOut => .ok []
  | .err e => .error (.execError e)
  | .ok output =>
    let recs := list_loop 8 get_vg_data_from_table (g_strsplit_nl output)
    if recs = [] then .error .parse else .ok recs

/-- `bd_lvm_lvs`: as `bd_lvm_pvs` with schema size 6.  (The optional
`vg_name` argument only changes the argument vector passed to the
executor, not the processing of its outcome.) -/
def bd_lvm_lvs (r : ExecResult) : Except BDLVMError (List BDLVMLVdata) :=
  match r with
  | .err .noOut => .ok []
  | .err e => .error (.execError e)
  | .ok output =>
    let recs := list_loop 6 get_lv_data_from_table (g_strsplit_nl output)
    if recs = [] then .error .parse else .ok recs

/-! ## Global Configuration Store (lvm.c lines 28-29, 1405-1444) and the
config-injecting invocation wrappers (lvm.c lines 126-176)

The store is `global_config_str : gchar*` (NULL when unset), modelled as
`Option Str`; the `GMutex` discipline of the straight-line wrapper bodies
is modelled as an event trace. -/

/-- One step of a config-injecting LVM invocation, in program order. -/
inductive LvmCallEvent where
  | lock
  | buildArgv (argv : List Str)
  | execCmd (argv : List Str)
  | unlock
deriving DecidableEq

/-- The argument vector both wrappers build under the lock: `"lvm"`, the
caller's arguments in order, then `--config=<value>` exactly when
`global_config_str` is non-NULL (a NULL entry instead terminates the
vector early). -/
def lvm_argv (args : List Str) (cfg : Option Str) : List Str :=
  "lvm".toList :: (args ++ (match cfg with
    | some s => ["--config=".toList ++ s]
    | none => []))

/-- The argument vector as the specification words it for C1: a config
argument is appended only if a non-empty value is currently set. -/
def lvm_argv_spec (args : List Str) (cfg : Option Str) : List Str :=
  "lvm".toList :: (args ++ (match cfg with
    | some s => if s = [] then [] else ["--config=".toList ++ s]
    | none => []))

/-- `call_lvm_and_report_error` (lvm.c lines 126-150): lock the store,
build the vector, run the executor, unlock. -/
def call_lvm_and_report_error (args : List Str) (cfg : Option Str) : List LvmCallEvent :=
  [.lock, .buildArgv (lvm_argv args cfg), .execCmd (lvm_argv args cfg), .unlock]

/-- `call_lvm_and_capture_output` (lvm.c lines 152-176): identical lock /
build / exec / unlock sequence, capturing output. -/
def call_lvm_and_capture_output (args : List Str) (cfg : Option Str) : List LvmCallEvent :=
  [.lock, .buildArgv (lvm_argv args cfg), .execCmd (lvm_argv args cfg), .unlock]

/-- `bd_lvm_set_global_config` (lvm.c lines 1414-1428): under the lock,
free the old value and store a copy of the new one (`g_strdup` of NULL is
NULL); always return TRUE and never touch the error out-parameter.
Result: (returned flag, written error), new store contents. -/
def bd_lvm_set_global_config (new_config : Option Str) (_st : Option Str) :
    (Bool × Option BDLVMError) × Option Str :=
  ((true, none), new_config)

/-- `bd_lvm_get_global_config` (lvm.c lines 1436-1444): under the lock,
return a copy of the stored string, or of `""` when unset. -/
def bd_lvm_get_global_config (st : Option Str) : Str :=
  match st with
  | some s => s
  | none => []

/-! ## Btrfs volume creation (btrfs.c `bd_btrfs_create_volume` lines
171-226, `bd_btrfs_mkfs` lines 599-601) -/

/-- Errors a btrfs call can report: `BD_BTRFS_ERROR_DEVICE` from argument
validation, or the executor's failure. -/
inductive BtrfsCallError where
  | device (msg : Str)
  | execFailed (msg : Str)
deriving DecidableEq

/-- Result of one btrfs call: the returned flag, the error out-parameter,
and the argument vectors handed to the Command Executor. -/
structure BtrfsCallResult where
  success : Bool
  error : Option BtrfsCallError
  executed : List (List Str)
deriving DecidableEq

/-- The `mkfs.btrfs` argument vector built once validation passed:
optional `--label`, `--data`, `--metadata` pairs, then the devices. -/
def btrfs_create_argv (devices : List Str) (label data_level md_level : Option Str) :
    List Str :=
  "mkfs.btrfs".toList ::
    ((match label with | some l => ["--label".toList, l] | none => []) ++
     (match data_level with | some d => ["--data".toList, d] | none => []) ++
     (match md_level with | some m => ["--metadata".toList, m] | none => []) ++
     devices)

/-- `bd_btrfs_create_volume`: reject a NULL or empty device list with
`BD_BTRFS_ERROR_DEVICE` ("No devices given"); reject the first listed
device for which `access (dev, F_OK)` fails with `BD_BTRFS_ERROR_DEVICE`
("Device ... does not exist"); only then build the vector and run the
executor.  `deviceExists` models `access (dev, F_OK) == 0` and `execErr`
the executor's outcome (`none` meaning success). -/
def bd_btrfs_create_volume (deviceExists : Str → Bool) (execErr : Option Str)
    (devices : Option (List Str)) (label data_level md_level : Option Str) :
    BtrfsCallResult :=
  match devices with
  | none => ⟨false, some (.device "No devices given".toList), []⟩
  | some ds =>
    if ds.length < 1 then ⟨false, some (.device "No devices given".toList), []⟩
    else
      match ds.find? (fun d => !deviceExists d) with
      | some d =>
        ⟨false, some (.device ("Device ".toList ++ d ++ " does not exist".toList)), []⟩
      | none =>
        let argv := btrfs_create_argv ds label data_level md_level
        match execErr with
        | none => ⟨true, none, [argv]⟩
        | some m => ⟨false, some (.execFailed m), [argv]⟩

/-- `bd_btrfs_mkfs`: a direct delegation to `bd_btrfs_create_volume`. -/
def bd_btrfs_mkfs (deviceExists : Str → Bool) (execErr : Option Str)
    (devices : Option (List Str)) (label data_level md_level : Option Str) :
    BtrfsCallResult :=
  bd_btrfs_create_volume deviceExists execErr devices label data_level md_level

/-! ## Initialization Protocol -/

/-- `BDPluginSpec` (spec §3): a requested backend name and an optional
override path to its module. -/
structure BDPluginSpec where
  name : Str
  so_name : Option Str

/-- Modelled from the spec: `bd_init`'s error domain.  Only the
declaration of `BD_INIT_ERROR_PLUGINS_FAILED` (blockdev.h lines 9-12) is
in the sources; per design note §9 the aggregated failure is an ordered
sequence of (backend name, underlying cause) pairs. -/
inductive BDInitError where
  | pluginsFailed (failures : List (Str × Str))

/-- Modelled from the spec: the implementation of `bd_init` (blockdev.c)
is not among the sources, only its declaration (blockdev.h line 14).  Per
spec §4.1/§8: attempt to load every required spec (`load` is the module
resolution oracle, returning the failure cause when the module cannot be
resolved); if any required spec fails, fail with `PluginsFailed`
aggregating every individual failure, so the caller sees all problems at
once, not just the first. -/
def bd_init (load : BDPluginSpec → Option Str) (require_plugins : List BDPluginSpec) :
    Except BDInitError Unit :=
  let failures := require_plugins.filterMap
    (fun sp => (load sp).map (fun cause => (sp.name, cause)))
  if failures.isEmpty then .ok () else .error (.pluginsFailed failures)

end Blockdev

namespace Blockdev

theorem splitFirstEq_of_hasEq {s : Str} (h : hasEqTok s = true) :
    splitFirstEq s = [eqKey s, eqVal s] := by
  have hne : s ≠ [] := by
    intro he
    subst he
    simp [hasEqTok] at h
  rw [splitFirstEq, if_neg hne, if_pos h]

theorem splitFirstEq_length_ne {s : Str} (h : hasEqTok s = false) :
    (splitFirstEq s).length ≠ 2 := by
  by_cases hs : s = []
  · subst hs
    simp [splitFirstEq]
  · rw [splitFirstEq, if_neg hs, if_neg (by simp [h])]
    simp

theorem parseTokens_cons_hasEq {t : Str} (ts : List Str)
    (acc : List (Str × Str) × Nat) (h : hasEqTok t = true) :
    parseTokens (t :: ts) acc =
      parseTokens ts (tableInsert acc.1 (eqKey t) (eqVal t), acc.2 + 1) := by
  rw [parseTokens]
  simp only [splitFirstEq_of_hasEq h]
  rfl

theorem parseTokens_cons_noEq {t : Str} (ts : List Str)
    (acc : List (Str × Str) × Nat) (h : hasEqTok t = false) :
    parseTokens (t :: ts) acc = parseTokens ts acc := by
  rw [parseTokens]
  simp only [if_neg (splitFirstEq_length_ne h)]

theorem lookupTable_tableInsert (m : List (Str × Str)) (k v k' : Str) :
    lookupTable (tableInsert m k v) k' =
      if k' = k then some v else lookupTable m k' := by
  induction m with
  | nil =>
    by_cases h : k' = k
    · subst h
      simp [tableInsert, lookupTable]
    · have h2 : ¬ (k = k') := fun he => h he.symm
      simp [tableInsert, lookupTable, h, h2]
  | cons p m ih =>
    by_cases hp : p.1 = k
    · rw [tableInsert, if_pos hp]
      by_cases h : k' = k
      · subst h
        simp [lookupTable]
      · have h2 : ¬ (k = k') := fun he => h he.symm
        have h3 : ¬ (p.1 = k') := by
          rw [hp]
          exact h2
        simp [lookupTable, h, h2, h3]
    · rw [tableInsert, if_neg hp]
      by_cases h : p.1 = k'
      · have hk : ¬ (k' = k) := fun he => hp (h.trans he)
        simp [lookupTable, h, hk]
      · simp [lookupTable, h, ih]

theorem keys_tableInsert (m : List (Str × Str)) (k v : Str) :
    (tableInsert m k v).map Prod.fst =
      if k ∈ m.map Prod.fst then m.map Prod.fst else m.map Prod.fst ++ [k] := by
  induction m with
  | nil => simp [tableInsert]
  | cons p m ih =>
    by_cases hp : p.1 = k
    · rw [tableInsert, if_pos hp]
      simp [hp]
    · rw [tableInsert, if_neg hp]
      have hkp : k ≠ p.1 := fun he => hp he.symm
      by_cases h : k ∈ m.map Prod.fst
      · simp [List.mem_cons, hkp, ih, h]
      · simp [List.mem_cons, hkp, ih, h]

end Blockdev

namespace Blockdev

theorem optOr_none (a : Option Str) : optOr a none = a := by
  cases a <;> rfl

theorem parseTokens_snd (ts : List Str) : ∀ acc,
    (parseTokens ts acc).2 = acc.2 + (ts.filter hasEqTok).length := by
  induction ts with
  | nil =>
    intro acc
    simp [parseTokens]
  | cons t ts ih =>
    intro acc
    cases h : hasEqTok t with
    | false =>
      rw [parseTokens_cons_noEq ts acc h, ih, List.filter_cons, if_neg (by simp [h])]
    | true =>
      rw [parseTokens_cons_hasEq ts acc h, ih, List.filter_cons, if_pos h]
      simp
      omega

theorem parseTokens_lookup (ts : List Str) : ∀ acc k,
    lookupTable (parseTokens ts acc).1 k =
      optOr (lastWins (ts.filter hasEqTok) k) (lookupTable acc.1 k) := by
  induction ts with
  | nil =>
    intro acc k
    simp [parseTokens, lastWins, optOr]
  | cons t ts ih =>
    intro acc k
    cases h : hasEqTok t with
    | false =>
      rw [parseTokens_cons_noEq ts acc h, ih, List.filter_cons, if_neg (by simp [h])]
    | true =>
      rw [parseTokens_cons_hasEq ts acc h, ih, lookupTable_tableInsert,
        List.filter_cons, if_pos h]
      simp only [lastWins, List.reverse_cons, List.find?_append]
      cases hf : (List.filter hasEqTok ts).reverse.find? (fun t => eqKey t = k) with
      | some x => simp [hf, optOr, Option.or]
      | none =>
        by_cases hk : eqKey t = k
        · have hk2 : k = eqKey t := hk.symm
          simp [hf, Option.or, List.find?, hk, optOr, if_pos hk2]
        · have hk2 : ¬ (k = eqKey t) := fun he => hk he.symm
          simp [hf, Option.or, List.find?, hk, optOr, hk2]

theorem parseTokens_keys (ts : List Str) : ∀ acc,
    (parseTokens ts acc).1.map Prod.fst =
      dedupFrom (acc.1.map Prod.fst) ((ts.filter hasEqTok).map eqKey) := by
  induction ts with
  | nil =>
    intro acc
    simp [parseTokens, dedupFrom]
  | cons t ts ih =>
    intro acc
    cases h : hasEqTok t with
    | false =>
      rw [parseTokens_cons_noEq ts acc h, ih, List.filter_cons, if_neg (by simp [h])]
    | true =>
      rw [parseTokens_cons_hasEq ts acc h, ih, List.filter_cons, if_pos h,
        keys_tableInsert, List.map_cons]
      rfl

theorem dedupFrom_cons (ks : List Str) (a : Str) (l : List Str) :
    dedupFrom ks (a :: l) = dedupFrom (if a ∈ ks then ks else ks ++ [a]) l := rfl

theorem dedupFrom_length_le (l : List Str) : ∀ ks,
    (dedupFrom ks l).length ≤ ks.length + l.length := by
  induction l with
  | nil =>
    intro ks
    simp [dedupFrom]
  | cons a l ih =>
    intro ks
    rw [dedupFrom_cons]
    by_cases h : a ∈ ks
    · rw [if_pos h]
      have := ih ks
      simp only [List.length_cons]
      omega
    · rw [if_neg h]
      have := ih (ks ++ [a])
      simp only [List.length_append, List.length_cons, List.length_nil] at this ⊢
      omega

theorem dedupFrom_length_lt (l : List Str) : ∀ ks,
    (∃ k, k ∈ l ∧ (k ∈ ks ∨ 1 < l.count k)) →
    (dedupFrom ks l).length < ks.length + l.length := by
  induction l with
  | nil =>
    intro ks h
    obtain ⟨k, hk, _⟩ := h
    exact absurd hk (List.not_mem_nil k)
  | cons a l ih =>
    intro ks h
    obtain ⟨k, hkmem, hk⟩ := h
    rw [dedupFrom_cons]
    by_cases ha : a ∈ ks
    · rw [if_pos ha]
      have := dedupFrom_length_le l ks
      simp only [List.length_cons]
      omega
    · rw [if_neg ha]
      have hw : ∃ k, k ∈ l ∧ (k ∈ ks ++ [a] ∨ 1 < l.count k) := by
        rcases List.mem_cons.mp hkmem with hka | hkl
        · subst hka
          rcases hk with hks | hcount
          · exact absurd hks ha
          · have hc : 0 < l.count k := by
              rw [List.count_cons_self] at hcount
              omega
            exact ⟨k, List.count_pos_iff.mp hc, Or.inl (by simp)⟩
        · rcases hk with hks | hcount
          · exact ⟨k, hkl, Or.inl (by simp [hks])⟩
          · by_cases hka : k = a
            · subst hka
              exact ⟨k, hkl, Or.inl (by simp)⟩
            · have hc : (a :: l).count k = l.count k := List.count_cons_of_ne hka l
              exact ⟨k, hkl, Or.inr (by omega)⟩
      have := ih (ks ++ [a]) hw
      simp only [List.length_append, List.length_cons, List.length_nil] at this ⊢
      omega

end Blockdev

namespace Blockdev

theorem parse_lvm_vars_lookup (line k : Str) :
    lookupTable (parse_lvm_vars line).1 k = lastWins (eqTokens line) k := by
  rw [parse_lvm_vars, parseTokens_lookup]
  exact optOr_none _

theorem parse_lvm_vars_keys (line : Str) :
    (parse_lvm_vars line).1.map Prod.fst = dedupKeys ((eqTokens line).map eqKey) := by
  rw [parse_lvm_vars, parseTokens_keys]
  rfl

theorem parse_lvm_vars_count (line : Str) :
    (parse_lvm_vars line).2 = (eqTokens line).length := by
  rw [parse_lvm_vars, parseTokens_snd]
  simp [eqTokens]

/-- C2: `parse_lvm_vars` splits the line on whitespace, silently discards
every token without `=`, binds for each `=`-token the text before the
first `=` to the text after it with the later token winning on a repeated
key, reports the number of inserted items, and on the concrete input
`"LVM2_PV_NAME=/dev/sda1 LVM2_PV_UUID=abc\tLVM2_PE_START=2048\n"` yields
exactly the 3 keys with their literal values and reported count 3, the
trailing `=`-less token notwithstanding. -/
theorem claim_C2 :
    (∀ line k : Str, lookupTable (parse_lvm_vars line).1 k = lastWins (eqTokens line) k) ∧
    (∀ line : Str,
      (parse_lvm_vars line).1.map Prod.fst = dedupKeys ((eqTokens line).map eqKey)) ∧
    (∀ line : Str, (parse_lvm_vars line).2 = (eqTokens line).length) ∧
    parse_lvm_vars "LVM2_PV_NAME=/dev/sda1 LVM2_PV_UUID=abc\tLVM2_PE_START=2048\n".toList =
      ([("LVM2_PV_NAME".toList, "/dev/sda1".toList),
        ("LVM2_PV_UUID".toList, "abc".toList),
        ("LVM2_PE_START".toList, "2048".toList)], 3) :=
  ⟨parse_lvm_vars_lookup, parse_lvm_vars_keys, parse_lvm_vars_count, by decide⟩

/-- C8: the item count reported by `parse_lvm_vars` counts every insertion
including re-insertions of a repeated key, so on any line in which some
key occurs more than once the reported count strictly exceeds the number
of keys in the returned mapping. -/
theorem claim_C8 : ∀ line : Str,
    (∃ k : Str, 1 < ((eqTokens line).map eqKey).count k) →
    (parse_lvm_vars line).1.length < (parse_lvm_vars line).2 := by
  intro line h
  obtain ⟨k, hk⟩ := h
  have h1 : (parse_lvm_vars line).1.length =
      (dedupKeys ((eqTokens line).map eqKey)).length := by
    rw [← parse_lvm_vars_keys line, List.length_map]
  have h2 : (parse_lvm_vars line).2 = ((eqTokens line).map eqKey).length := by
    rw [parse_lvm_vars_count line, List.length_map]
  have hm : k ∈ (eqTokens line).map eqKey := List.count_pos_iff.mp (by omega)
  have h3 := dedupFrom_length_lt ((eqTokens line).map eqKey) [] ⟨k, hm, Or.inr hk⟩
  rw [h1, h2]
  simpa [dedupKeys] using h3

/-- Witness for C8 at the concrete line `"A=1 A=2 B=3"`: 3 items are
reported but the mapping holds 2 keys. -/
theorem claim_C8_witness :
    (parse_lvm_vars "A=1 A=2 B=3".toList).1.length <
      (parse_lvm_vars "A=1 A=2 B=3".toList).2 :=
  claim_C8 "A=1 A=2 B=3".toList ⟨"A".toList, by decide⟩

end Blockdev

namespace Blockdev

theorem list_loop_eq_filter_map {α : Type} (n : Nat) (ext : List (Str × Str) → α) :
    ∀ ls : List Str,
      list_loop n ext ls =
        (ls.filter (fun l => (parse_lvm_vars l).2 = n)).map
          (fun l => ext (parse_lvm_vars l).1) := by
  intro ls
  induction ls with
  | nil => rfl
  | cons line rest ih =>
    by_cases h : (parse_lvm_vars line).2 = n
    · simp only [list_loop, List.filter_cons, List.map_cons, h]
      simp [ih]
    · simp only [list_loop, List.filter_cons]
      simp [h, ih]

theorem info_loop_first {α : Type} (n : Nat) (ext : List (Str × Str) → α) :
    ∀ (pre : List Str) (line : Str) (post : List Str),
      (∀ l ∈ pre, (parse_lvm_vars l).2 ≠ n) → (parse_lvm_vars line).2 = n →
      info_loop n ext (pre ++ line :: post) = .ok (ext (parse_lvm_vars line).1) := by
  intro pre
  induction pre with
  | nil =>
    intro line post _ hline
    simp [info_loop, hline]
  | cons p pre ih =>
    intro line post hpre hline
    have hp : (parse_lvm_vars p).2 ≠ n := hpre p (List.mem_cons_self p pre)
    simp only [List.cons_append, info_loop]
    rw [if_neg hp]
    exact ih line post (fun l hl => hpre l (List.mem_cons_of_mem p hl)) hline

theorem info_loop_nomatch {α : Type} (n : Nat) (ext : List (Str × Str) → α) :
    ∀ ls : List Str, (∀ l ∈ ls, (parse_lvm_vars l).2 ≠ n) →
      info_loop n ext ls = .error .parse := by
  intro ls
  induction ls with
  | nil =>
    intro _
    rfl
  | cons p rest ih =>
    intro h
    have hp : (parse_lvm_vars p).2 ≠ n := h p (List.mem_cons_self p rest)
    simp only [info_loop]
    rw [if_neg hp]
    exact ih (fun l hl => h l (List.mem_cons_of_mem p hl))

/-- C3: on the `NoOutput` condition each list-all query clears the error
and returns a legitimate empty result array; any other command failure is
propagated unchanged; a successful output is turned into the records of
its schema-matching lines (or a parse error when there are none). -/
theorem claim_C3 : ∀ msg output : Str,
    (bd_lvm_pvs (.err .noOut) = .ok [] ∧
     bd_lvm_pvs (.err (.failed msg)) = .error (.execError (.failed msg)) ∧
     bd_lvm_pvs (.ok output) =
       (let recs := ((g_strsplit_nl output).filter (fun l => (parse_lvm_vars l).2 = 11)).map
          (fun l => get_pv_data_from_table (parse_lvm_vars l).1)
        if recs = [] then .error .parse else .ok recs)) ∧
    (bd_lvm_vgs (.err .noOut) = .ok [] ∧
     bd_lvm_vgs (.err (.failed msg)) = .error (.execError (.failed msg)) ∧
     bd_lvm_vgs (.ok output) =
       (let recs := ((g_strsplit_nl output).filter (fun l => (parse_lvm_vars l).2 = 8)).map
          (fun l => get_vg_data_from_table (parse_lvm_vars l).1)
        if recs = [] then .error .parse else .ok recs)) ∧
    (bd_lvm_lvs (.err .noOut) = .ok [] ∧
     bd_lvm_lvs (.err (.failed msg)) = .error (.execError (.failed msg)) ∧
     bd_lvm_lvs (.ok output) =
       (let recs := ((g_strsplit_nl output).filter (fun l => (parse_lvm_vars l).2 = 6)).map
          (fun l => get_lv_data_from_table (parse_lvm_vars l).1)
        if recs = [] then .error .parse else .ok recs)) := by
  intro msg output
  refine ⟨⟨rfl, rfl, ?_⟩, ⟨rfl, rfl, ?_⟩, ⟨rfl, rfl, ?_⟩⟩
  · simp only [bd_lvm_pvs, list_loop_eq_filter_map]
  · simp only [bd_lvm_vgs, list_loop_eq_filter_map]
  · simp only [bd_lvm_lvs, list_loop_eq_filter_map]

/-- C4: for every successfully captured output, each fetch-one-record
query returns the record built from the first line whose parsed item count
equals its schema size (11 for PVs, 8 for VGs, 6 for LVs), ignoring all
later lines; when no line matches it reports `BD_LVM_ERROR_PARSE`. -/
theorem claim_C4 :
    ((∀ (output : Str) (pre : List Str) (line : Str) (post : List Str),
        g_strsplit_nl output = pre ++ line :: post →
        (∀ l ∈ pre, (parse_lvm_vars l).2 ≠ 11) → (parse_lvm_vars line).2 = 11 →
        bd_lvm_pvinfo (.ok output) = .ok (get_pv_data_from_table (parse_lvm_vars line).1)) ∧
     (∀ output : Str, (∀ l ∈ g_strsplit_nl output, (parse_lvm_vars l).2 ≠ 11) →
        bd_lvm_pvinfo (.ok output) = .error .parse)) ∧
    ((∀ (output : Str) (pre : List Str) (line : Str) (post : List Str),
        g_strsplit_nl output = pre ++ line :: post →
        (∀ l ∈ pre, (parse_lvm_vars l).2 ≠ 8) → (parse_lvm_vars line).2 = 8 →
        bd_lvm_vginfo (.ok output) = .ok (get_vg_data_from_table (parse_lvm_vars line).1)) ∧
     (∀ output : Str, (∀ l ∈ g_strsplit_nl output, (parse_lvm_vars l).2 ≠ 8) →
        bd_lvm_vginfo (.ok output) = .error .parse)) ∧
    ((∀ (output : Str) (pre : List Str) (line : Str) (post : List Str),
        g_strsplit_nl output = pre ++ line :: post →
        (∀ l ∈ pre, (parse_lvm_vars l).2 ≠ 6) → (parse_lvm_vars line).2 = 6 →
        bd_lvm_lvinfo (.ok output) = .ok (get_lv_data_from_table (parse_lvm_vars line).1)) ∧
     (∀ output : Str, (∀ l ∈ g_strsplit_nl output, (parse_lvm_vars l).2 ≠ 6) →
        bd_lvm_lvinfo (.ok output) = .error .parse)) := by
  refine ⟨⟨?_, ?_⟩, ⟨?_, ?_⟩, ⟨?_, ?_⟩⟩
  · intro output pre line post hsplit hpre hline
    simp only [bd_lvm_pvinfo, hsplit]
    exact info_loop_first 11 get_pv_data_from_table pre line post hpre hline
  · intro output h
    simp only [bd_lvm_pvinfo]
    exact info_loop_nomatch 11 get_pv_data_from_table _ h
  · intro output pre line post hsplit hpre hline
    simp only [bd_lvm_vginfo, hsplit]
    exact info_loop_first 8 get_vg_data_from_table pre line post hpre hline
  · intro output h
    simp only [bd_lvm_vginfo]
    exact info_loop_nomatch 8 get_vg_data_from_table _ h
  · intro output pre line post hsplit hpre hline
    simp only [bd_lvm_lvinfo, hsplit]
    exact info_loop_first 6 get_lv_data_from_table pre line post hpre hline
  · intro output h
    simp only [bd_lvm_lvinfo]
    exact info_loop_nomatch 6 get_lv_data_from_table _ h

end Blockdev

namespace Blockdev

set_option maxRecDepth 8000 in
/-- Witness for C4: concrete outputs in which the second line matches the
schema (11, 8 and 6 items respectively) and concrete outputs in which no
line does. -/
theorem claim_C4_witness :
    (bd_lvm_pvinfo (.ok ("x\nLVM2_PV_NAME=/dev/sda1 LVM2_PV_UUID=u LVM2_PE_START=2048 LVM2_VG_NAME=vg LVM2_VG_UUID=vu LVM2_VG_SIZE=10 LVM2_VG_FREE=5 LVM2_VG_EXTENT_SIZE=4 LVM2_VG_EXTENT_COUNT=3 LVM2_VG_FREE_COUNT=2 LVM2_PV_COUNT=1").toList) =
      .ok (get_pv_data_from_table (parse_lvm_vars ("LVM2_PV_NAME=/dev/sda1 LVM2_PV_UUID=u LVM2_PE_START=2048 LVM2_VG_NAME=vg LVM2_VG_UUID=vu LVM2_VG_SIZE=10 LVM2_VG_FREE=5 LVM2_VG_EXTENT_SIZE=4 LVM2_VG_EXTENT_COUNT=3 LVM2_VG_FREE_COUNT=2 LVM2_PV_COUNT=1").toList).1)) ∧
    bd_lvm_pvinfo (.ok "hello".toList) = .error .parse ∧
    (bd_lvm_vginfo (.ok ("x\nLVM2_VG_NAME=vg LVM2_VG_UUID=vu LVM2_VG_SIZE=10 LVM2_VG_FREE=5 LVM2_VG_EXTENT_SIZE=4 LVM2_VG_EXTENT_COUNT=3 LVM2_VG_FREE_COUNT=2 LVM2_PV_COUNT=1").toList) =
      .ok (get_vg_data_from_table (parse_lvm_vars ("LVM2_VG_NAME=vg LVM2_VG_UUID=vu LVM2_VG_SIZE=10 LVM2_VG_FREE=5 LVM2_VG_EXTENT_SIZE=4 LVM2_VG_EXTENT_COUNT=3 LVM2_VG_FREE_COUNT=2 LVM2_PV_COUNT=1").toList).1)) ∧
    bd_lvm_vginfo (.ok "hello".toList) = .error .parse ∧
    (bd_lvm_lvinfo (.ok ("x\nLVM2_LV_NAME=lv LVM2_VG_NAME=vg LVM2_LV_UUID=u LVM2_LV_SIZE=10 LVM2_LV_ATTR=-wi LVM2_SEGTYPE=linear").toList) =
      .ok (get_lv_data_from_table (parse_lvm_vars ("LVM2_LV_NAME=lv LVM2_VG_NAME=vg LVM2_LV_UUID=u LVM2_LV_SIZE=10 LVM2_LV_ATTR=-wi LVM2_SEGTYPE=linear").toList).1)) ∧
    bd_lvm_lvinfo (.ok "hello".toList) = .error .parse :=
  ⟨claim_C4.1.1 _ ["x".toList] _ [] (by decide) (by decide) (by decide),
   claim_C4.1.2 _ (by decide),
   claim_C4.2.1.1 _ ["x".toList] _ [] (by decide) (by decide) (by decide),
   claim_C4.2.1.2 _ (by decide),
   claim_C4.2.2.1 _ ["x".toList] _ [] (by decide) (by decide) (by decide),
   claim_C4.2.2.2 _ (by decide)⟩

end Blockdev

namespace Blockdev

/-- Counterexample for C1 as stated: after `bd_lvm_set_global_config ("")`
the store holds the empty-but-set value, and the wrappers append the extra
argument `--config=` even though no non-empty configuration value is set
(the argument vector the spec describes would omit it). -/
theorem claim_C1_counterexample :
    (bd_lvm_set_global_config (some []) none).2 = some [] ∧
    lvm_argv [] (some []) = ["lvm".toList, "--config=".toList] ∧
    lvm_argv_spec [] (some []) = ["lvm".toList] ∧
    lvm_argv [] (some []) ≠ lvm_argv_spec [] (some []) := by decide

/-- C1 (amended): both config-injection wrappers invoke the Command
Executor with `["lvm"]` followed by the caller's arguments in order,
followed by the single extra argument `--config=<config>` if and only if a
configuration value is currently stored (non-NULL, even when empty), and
the store's lock is acquired before the vector is built and released only
after the external command has finished. -/
theorem claim_C1 : ∀ (args : List Str) (cfg : Option Str),
    (cfg = none → lvm_argv args cfg = "lvm".toList :: args) ∧
    (∀ s : Str, cfg = some s →
      lvm_argv args cfg = "lvm".toList :: (args ++ ["--config=".toList ++ s])) ∧
    call_lvm_and_report_error args cfg =
      [.lock, .buildArgv (lvm_argv args cfg), .execCmd (lvm_argv args cfg), .unlock] ∧
    call_lvm_and_capture_output args cfg =
      [.lock, .buildArgv (lvm_argv args cfg), .execCmd (lvm_argv args cfg), .unlock] := by
  intro args cfg
  refine ⟨?_, ?_, rfl, rfl⟩
  · intro h
    subst h
    simp [lvm_argv]
  · intro s h
    subst h
    simp [lvm_argv]

/-- Witness for C1 at concrete arguments and both store states. -/
theorem claim_C1_witness :
    lvm_argv ["pvs".toList] none = "lvm".toList :: ["pvs".toList] ∧
    lvm_argv ["pvs".toList] (some "cfg".toList) =
      "lvm".toList :: (["pvs".toList] ++ ["--config=".toList ++ "cfg".toList]) :=
  ⟨(claim_C1 ["pvs".toList] none).1 rfl,
   (claim_C1 ["pvs".toList] (some "cfg".toList)).2.1 "cfg".toList rfl⟩

/-- C5: whenever at least one required backend's module cannot be
resolved, `bd_init` fails with `BD_INIT_ERROR_PLUGINS_FAILED` and the
aggregated failure records every failing backend by name. -/
theorem claim_C5 : ∀ (load : BDPluginSpec → Option Str) (specs : List BDPluginSpec),
    (∃ sp, sp ∈ specs ∧ (load sp).isSome = true) →
    ∃ failures, bd_init load specs = .error (.pluginsFailed failures) ∧
      ∀ sp ∈ specs, ∀ cause, load sp = some cause → (sp.name, cause) ∈ failures := by
  intro load specs h
  obtain ⟨sp, hmem, hsome⟩ := h
  refine ⟨specs.filterMap (fun sp => (load sp).map (fun cause => (sp.name, cause))), ?_, ?_⟩
  · obtain ⟨c, hc⟩ := Option.isSome_iff_exists.mp hsome
    have hmem2 : (sp.name, c) ∈
        specs.filterMap (fun sp => (load sp).map (fun cause => (sp.name, cause))) :=
      List.mem_filterMap.mpr ⟨sp, hmem, by rw [hc]; rfl⟩
    have hne : ¬ ((specs.filterMap
        (fun sp => (load sp).map (fun cause => (sp.name, cause)))).isEmpty = true) := by
      intro he
      rw [List.isEmpty_iff] at he
      rw [he] at hmem2
      exact absurd hmem2 (List.not_mem_nil _)
    simp only [bd_init]
    rw [if_neg hne]
  · intro sp2 hmem2 cause hcause
    exact List.mem_filterMap.mpr ⟨sp2, hmem2, by rw [hcause]; rfl⟩

/-- Witness for C5: a single required backend whose module resolution
fails. -/
theorem claim_C5_witness :
    ∃ failures,
      bd_init (fun _ => some "cannot load".toList) [⟨"lvm".toList, none⟩] =
        .error (.pluginsFailed failures) ∧
      ∀ sp ∈ [(⟨"lvm".toList, none⟩ : BDPluginSpec)], ∀ cause,
        (fun _ => some "cannot load".toList : BDPluginSpec → Option Str) sp = some cause →
        (sp.name, cause) ∈ failures :=
  claim_C5 (fun _ => some "cannot load".toList) [⟨"lvm".toList, none⟩]
    ⟨⟨"lvm".toList, none⟩, List.mem_singleton.mpr rfl, rfl⟩

/-- C6: round-trip of the global configuration surface: setting a string
and reading returns that string; setting NULL resets the store so that
reading returns the empty string. -/
theorem claim_C6 : ∀ (s : Str) (st : Option Str),
    bd_lvm_get_global_config (bd_lvm_set_global_config (some s) st).2 = s ∧
    bd_lvm_get_global_config (bd_lvm_set_global_config none st).2 = [] :=
  fun _ _ => ⟨rfl, rfl⟩

/-- C10: `bd_lvm_set_global_config` returns TRUE for every input and never
writes its error out-parameter. -/
theorem claim_C10 : ∀ (new_config st : Option Str),
    (bd_lvm_set_global_config new_config st).1 = (true, none) :=
  fun _ _ => rfl

/-- C9: a NULL or empty device list, or any listed device that does not
exist, makes `bd_btrfs_create_volume` (and its alias `bd_btrfs_mkfs`)
return FALSE with a `BD_BTRFS_ERROR_DEVICE` error without executing any
external command. -/
theorem claim_C9 : ∀ (deviceExists : Str → Bool) (execErr : Option Str)
    (devices : Option (List Str)) (label data_level md_level : Option Str),
    (devices = none ∨ devices = some [] ∨
      (∃ ds, devices = some ds ∧ ∃ d, d ∈ ds ∧ deviceExists d = false)) →
    ((bd_btrfs_create_volume deviceExists execErr devices label data_level md_level).success
        = false ∧
     (∃ m, (bd_btrfs_create_volume deviceExists execErr devices label data_level
        md_level).error = some (.device m)) ∧
     (bd_btrfs_create_volume deviceExists execErr devices label data_level
        md_level).executed = [] ∧
     bd_btrfs_mkfs deviceExists execErr devices label data_level md_level =
       bd_btrfs_create_volume deviceExists execErr devices label data_level md_level) := by
  intro ex execErr devices label dl ml h
  rcases h with h | h | ⟨ds, hds, d, hd, hex⟩
  · subst h
    exact ⟨rfl, ⟨_, rfl⟩, rfl, rfl⟩
  · subst h
    exact ⟨rfl, ⟨_, rfl⟩, rfl, rfl⟩
  · subst hds
    have hfind : ∃ d0, ds.find? (fun d => !ex d) = some d0 :=
      Option.isSome_iff_exists.mp (List.find?_isSome.mpr ⟨d, hd, by simp [hex]⟩)
    obtain ⟨d0, hd0⟩ := hfind
    have hlen : ¬ (ds.length < 1) := by
      have := List.length_pos_of_mem hd
      omega
    have hval : bd_btrfs_create_volume ex execErr (some ds) label dl ml =
        ⟨false, some (.device ("Device ".toList ++ d0 ++ " does not exist".toList)), []⟩ := by
      simp only [bd_btrfs_create_volume]
      rw [if_neg hlen, hd0]
    rw [hval]
    exact ⟨rfl, ⟨_, rfl⟩, rfl, by simp only [bd_btrfs_mkfs]; exact hval⟩

/-- Witness for C9: a NULL device list, and a one-element device list
whose device does not exist. -/
theorem claim_C9_witness :
    ((bd_btrfs_create_volume (fun _ => false) none none none none none).success = false ∧
     (∃ m, (bd_btrfs_create_volume (fun _ => false) none none none none none).error =
        some (.device m)) ∧
     (bd_btrfs_create_volume (fun _ => false) none none none none none).executed = [] ∧
     bd_btrfs_mkfs (fun _ => false) none none none none none =
       bd_btrfs_create_volume (fun _ => false) none none none none none) ∧
    ((bd_btrfs_create_volume (fun _ => false) none (some ["dev".toList]) none none
        none).success = false ∧
     (∃ m, (bd_btrfs_create_volume (fun _ => false) none (some ["dev".toList]) none none
        none).error = some (.device m)) ∧
     (bd_btrfs_create_volume (fun _ => false) none (some ["dev".toList]) none none
        none).executed = [] ∧
     bd_btrfs_mkfs (fun _ => false) none (some ["dev".toList]) none none none =
       bd_btrfs_create_volume (fun _ => false) none (some ["dev".toList]) none none none) :=
  ⟨claim_C9 (fun _ => false) none none none none none (Or.inl rfl),
   claim_C9 (fun _ => false) none (some ["dev".toList]) none none none
     (Or.inr (Or.inr ⟨["dev".toList], rfl, "dev".toList, List.mem_singleton.mpr rfl, rfl⟩))⟩

end Blockdev
